import Mathlib

/-!
Verification of the Yieldlab prebid-server adapter (`adapters/yieldlab/yieldlab.go`)
and of the prebid-cache client (`prebid_cache_client`).

The Go code is shallowly embedded: Go `map[string]string` values become
association lists with map-update semantics (`SMap`, `mapSet`, `mapGet`),
`json.Unmarshal` outcomes of the various extension payloads become explicit
sum types (`parsed`/`malformed`), machine integers become `Nat`, and the two
possible abnormal terminations of a call — returning an error value versus a
runtime panic (out-of-range slice index) — are separated in the `Outcome`
type.
-/

/-- Model of a Go `map[string]string`: an association list whose update
operation (`mapSet`, modelling `m[k] = v` and `url.Values.Set`) replaces any
existing binding of the key. -/
abbrev SMap := List (String × String)

/-- Map update: bind `k` to `v`, dropping any previous binding of `k`. -/
def mapSet (m : SMap) (k v : String) : SMap :=
  (k, v) :: m.filter (fun kv => kv.1 != k)

/-- Map lookup. -/
def mapGet (m : SMap) (k : String) : Option String :=
  (m.find? (fun kv => kv.1 == k)).map (fun kv => kv.2)

/-- Insertion into a key-sorted association list (used to model the
key-sorting performed by Go's `url.Values.Encode`). -/
def insertByKey (kv : String × String) : SMap → SMap
  | [] => [kv]
  | a :: t => if kv.1 ≤ a.1 then kv :: a :: t else a :: insertByKey kv t

/-- Sort an association list by key, as `url.Values.Encode` does. -/
def sortByKey (m : SMap) : SMap := m.foldr insertByKey []

/-- Model of `url.Values.Encode`: serialize as `k=v&...` with keys sorted.
Percent-escaping is not modelled; no claim depends on the escaping. -/
def encodeQuery (m : SMap) : String :=
  String.intercalate "&" ((sortByKey m).map (fun kv => kv.1 ++ "=" ++ kv.2))

/-- Model of Go `strconv.ParseUint(s, 10, 64)`: `some n` on a non-empty
all-digit string whose value fits in 64 bits, `none` (an error) otherwise. -/
def parseUint64 (s : String) : Option Nat :=
  if s.data.isEmpty then none
  else if s.data.all Char.isDigit then
    let n := s.data.foldl (fun acc c => acc * 10 + (c.toNat - 48)) 0
    if n < 2 ^ 64 then some n else none
  else none

/-- Model of Go `strings.Split` for a one-character separator (the only kind
this code uses): split at every occurrence of the separator, keeping empty
parts, so that `split 'x' "300x" = ["300", ""]` and `split 'x' "" = [""]`. -/
def splitChar (sep : Char) (s : String) : List String :=
  (s.data.foldr
    (fun ch acc =>
      if ch = sep then [] :: acc
      else match acc with
        | h :: t => (ch :: h) :: t
        | [] => [[ch]])
    [[]]).map List.asString

namespace Yieldlab

/-- Modelled from the spec: the `adsizeSeparator` constant is declared outside
the provided source files; the spec fixes the ad-size format as
`"<width>x<height>"` (e.g. `"300x250"`), so the separator is the one-character
string `"x"`, modelled as a character. -/
def adsizeSeparator : Char := 'x'

/-- Modelled from the spec: the `adSlotIdSeparator` constant is declared
outside the provided source files; the spec fixes the slot-ID join as
`["123","456"] → "123,456"`, so the separator is `","`. -/
def adSlotIdSeparator : String := ","

/-- Embedding of `splitSize`: split on the ad-size separator; a part count
other than two yields `(0, 0)` with no error; otherwise both parts are parsed
as unsigned integers and a parse failure yields an error. The third component
models the Go `error` return value. -/
def splitSize (size : String) : Nat × Nat × Option String :=
  match splitChar adsizeSeparator size with
  | [ws, hs] =>
    match parseUint64 ws with
    | none => (0, 0, some "failed to parse yieldlab adsize")
    | some w =>
      match parseUint64 hs with
      | none => (0, 0, some "failed to parse yieldlab adsize")
      | some h => (w, h, none)
  | _ => (0, 0, none)

/-- The `"<width>x<height>"` shape in the spec's sense: exactly two parts
separated by `x`, both non-empty decimal-digit strings. -/
def isWidthXHeight (s : String) : Bool :=
  match splitChar 'x' s with
  | [ws, hs] => !ws.data.isEmpty && ws.data.all Char.isDigit
      && !hs.data.isEmpty && hs.data.all Char.isDigit
  | _ => false

end Yieldlab

namespace Yieldlab

/-- Embedding of `openrtb_ext.ExtImpYieldlab`: the vendor parameters parsed
from one impression's extension. -/
structure ExtImpYieldlab where
  AdslotID : String
  SupplyID : String
  ExtId : String
  Targeting : SMap
deriving DecidableEq

/-- Outcome of the two-level `json.Unmarshal` of an impression's `Ext` payload
(`adapters.ExtImpBidder` envelope, then `openrtb_ext.ExtImpYieldlab`): either
some stage fails (a `BadInput` error in Go) or it yields the parameters. -/
inductive ImpExtPayload
  | malformed
  | parsed (p : ExtImpYieldlab)
deriving DecidableEq

/-- Embedding of the request fields of `openrtb.Imp` that the adapter reads:
the impression ID, the extension payload, and whether a Banner / Video object
is present (`!= nil`). -/
structure Imp where
  ID : String
  Ext : ImpExtPayload
  Banner : Bool
  Video : Bool
deriving DecidableEq

/-- Outcome of `json.Unmarshal(request.Regs.Ext, &extRegs)`. A nil `Ext`
payload behaves exactly like malformed bytes there (`json.Unmarshal` of empty
input errors), so both are folded into `unparseable`. `parsed` carries the
optional numeric GDPR flag (`ExtRegs.GDPR *int8`). -/
inductive RegsExtPayload
  | unparseable
  | parsed (gdpr : Option Int)
deriving DecidableEq

/-- Embedding of `openrtb.Regs` as the adapter reads it. -/
structure RegsModel where
  ext : RegsExtPayload
deriving DecidableEq

/-- Outcome of `json.Unmarshal(request.User.Ext, &extUser)`. Unlike the regs
payload, the code checks `User.Ext != nil` first, so a nil payload (`none` at
the `Option` level) is distinguished from malformed bytes. -/
inductive UserExtPayload
  | malformed
  | parsed (consent : String)
deriving DecidableEq

/-- Embedding of `openrtb.User` as the adapter reads it. -/
structure UserModel where
  BuyerUID : String
  ext : Option UserExtPayload
deriving DecidableEq

/-- Embedding of `openrtb.Device` as the adapter reads it. The device type,
connection type and geo coordinates are only ever rendered with `fmt` `%v`
into query values no claim depends on, so they are modelled as the rendered
strings. -/
structure DeviceModel where
  IFA : String
  DeviceTypeVal : String
  ConnectionTypeVal : Option String
  Geo : Option (String × String)
deriving DecidableEq

/-- Embedding of `openrtb.App` as the adapter reads it. -/
structure AppModel where
  Name : String
  Bundle : String
deriving DecidableEq

/-- Embedding of `openrtb.BidRequest` restricted to the fields the adapter
reads (`Site` only feeds a header and is omitted). -/
structure BidRequest where
  Imp : List Imp
  Regs : Option RegsModel
  User : Option UserModel
  Device : Option DeviceModel
  App : Option AppModel
deriving DecidableEq

/-- Embedding of `YieldlabAdapter`: the configured endpoint (with a flag for
whether `url.Parse` accepts it), and the two injected capabilities
(`cacheBuster`, `getWeek`) as the strings they produce. -/
structure Adapter where
  endpointValid : Bool
  endpointPath : String
  cb : String
  week : String
deriving DecidableEq

/-- Embedding of the vendor response entry type `bidResponse`. -/
structure bidResponse where
  ID : Nat
  Price : Nat
  Advertiser : String
  Adsize : String
  Pid : Nat
  Did : Nat
  Pvid : String
deriving DecidableEq

/-- Outcome of `json.Unmarshal` of the vendor response body as a
`[]*bidResponse` array. -/
inductive BodyPayload
  | malformed
  | parsed (bids : List bidResponse)
deriving DecidableEq

/-- Embedding of `adapters.ResponseData` (the transport result). -/
structure ResponseData where
  StatusCode : Nat
  Body : BodyPayload
deriving DecidableEq

/-- Error values returned by the adapter, one constructor per `return`-an-error
site the claims distinguish. -/
inductive YErr
  | badInput (msg : String)
  | statusErr (code : Nat)
  | bodyParse
  | sizeErr (msg : String)
  | noBidReq (id : Nat)
deriving DecidableEq

/-- Embedding of `getGDPR`: returns the GDPR flag (as `"0"`/`"1"`, or `""`
when absent or out of range) and the consent string, or the first
`json.Unmarshal` error encountered. -/
def getGDPR (r : BidRequest) : Except String (String × String) :=
  let gdprRes : Except String String :=
    match r.Regs with
    | none => .ok ""
    | some regs =>
      match regs.ext with
      | .unparseable => .error "failed to parse ExtRegs in Yieldlab GDPR check"
      | .parsed g =>
        match g with
        | some v => .ok (if v = 0 ∨ v = 1 then toString v else "")
        | none => .ok ""
  match gdprRes with
  | .error e => .error e
  | .ok gdpr =>
    match r.User with
    | none => .ok (gdpr, "")
    | some u =>
      match u.ext with
      | none => .ok (gdpr, "")
      | some .malformed => .error "failed to parse ExtUser in Yieldlab GDPR check"
      | some (.parsed c) => .ok (gdpr, c)

/-- Embedding of `makeTargetingValues`: URL-encode the targeting map. -/
def makeTargetingValues (params : ExtImpYieldlab) : String :=
  encodeQuery params.Targeting

/-- The `q.Set` block guarded by `req.User != nil && req.User.BuyerUID != ""`
in `makeEndpointURL`. -/
def setEndpointUserParams (r : BidRequest) (q : SMap) : SMap :=
  match r.User with
  | some u => if u.BuyerUID ≠ "" then mapSet q "ids" ("ylid:" ++ u.BuyerUID) else q
  | none => q

/-- The `q.Set` block guarded by `req.Device != nil` in `makeEndpointURL`. -/
def setEndpointDeviceParams (r : BidRequest) (q : SMap) : SMap :=
  match r.Device with
  | some d =>
    let q := mapSet q "yl_rtb_ifa" d.IFA
    let q := mapSet q "yl_rtb_devicetype" d.DeviceTypeVal
    let q := match d.ConnectionTypeVal with
      | some ct => mapSet q "yl_rtb_connectiontype" ct
      | none => q
    match d.Geo with
    | some g => mapSet (mapSet q "lat" g.1) "lon" g.2
    | none => q
  | none => q

/-- The `q.Set` block guarded by `req.App != nil` in `makeEndpointURL`. -/
def setEndpointAppParams (r : BidRequest) (q : SMap) : SMap :=
  match r.App with
  | some app => mapSet (mapSet q "pubappname" app.Name) "pubbundlename" app.Bundle
  | none => q

/-- The query of `makeEndpointURL` up to (not including) the GDPR step:
the fixed parameters, the cache buster, the encoded targeting, and the
user/device/app context blocks. -/
def baseEndpointQuery (a : Adapter) (r : BidRequest) (params : ExtImpYieldlab) : SMap :=
  let q : SMap := []
  let q := mapSet q "content" "json"
  let q := mapSet q "pvid" "true"
  let q := mapSet q "ts" a.cb
  let q := mapSet q "t" (makeTargetingValues params)
  setEndpointAppParams r (setEndpointDeviceParams r (setEndpointUserParams r q))

/-- Model of the URL value `makeEndpointURL` assembles: the path (with the
slot IDs appended, `path.Join`'s slash-cleaning not modelled) and the query
map that `uri.RawQuery = q.Encode()` serializes. -/
structure URLModel where
  path : String
  query : SMap
deriving DecidableEq

/-- Embedding of `makeEndpointURL`: fails if the configured endpoint does not
parse or if `getGDPR` fails; adds `gdpr` and `consent` only when both are
non-empty. -/
def makeEndpointURL (a : Adapter) (r : BidRequest) (params : ExtImpYieldlab) :
    Except String URLModel :=
  if a.endpointValid then
    match getGDPR r with
    | .error e => .error e
    | .ok (gdpr, consent) =>
      let q := baseEndpointQuery a r params
      let q := if gdpr ≠ "" ∧ consent ≠ "" then mapSet (mapSet q "gdpr" gdpr) "consent" consent else q
      .ok { path := a.endpointPath ++ "/" ++ params.AdslotID, query := q }
  else .error "failed to parse yieldlab endpoint"

/-- Embedding of `mergeParams`: slot IDs joined in input order, targeting maps
merged left to right so that later impressions overwrite earlier ones on key
collision. The Go function's error return is always nil and is omitted. -/
def mergeParams (params : List ExtImpYieldlab) : ExtImpYieldlab :=
  { AdslotID := String.intercalate adSlotIdSeparator (params.map (fun p => p.AdslotID))
    SupplyID := ""
    ExtId := ""
    Targeting :=
      params.foldl (fun t p => p.Targeting.foldl (fun t kv => mapSet t kv.1 kv.2) t) [] }

/-- The loop body of `parseRequest`: parse every impression's extension in
order, failing with the first impression whose payload does not unmarshal. -/
def parseImps : List Imp → Except YErr (List ExtImpYieldlab)
  | [] => .ok []
  | imp :: rest =>
    match imp.Ext with
    | .malformed => .error (.badInput "failed to unmarshal imp ext")
    | .parsed p =>
      match parseImps rest with
      | .error e => .error e
      | .ok ps => .ok (p :: ps)

/-- Embedding of `parseRequest`. -/
def parseRequest (r : BidRequest) : Except YErr (List ExtImpYieldlab) :=
  parseImps r.Imp

/-- Embedding of `findBidReq`: find the first request parameter set whose
`AdslotID` equals the response entry's `id` rendered in decimal. -/
def findBidReq (adslotID : Nat) (params : List ExtImpYieldlab) : Option ExtImpYieldlab :=
  params.find? (fun p => p.AdslotID == toString adslotID)

/-- Modelled from the spec: the `creativeID` format constant is declared
outside the provided source files; per the spec the creative ID is computed
deterministically from the slot ID, the deal/internal ID and the current ISO
week number. -/
def makeCreativeID (a : Adapter) (req : ExtImpYieldlab) (bid : bidResponse) : String :=
  req.AdslotID ++ toString bid.Pid ++ a.week

/-- The `url.Values` built inside `makeAdSourceURL` up to (not including) the
GDPR step. Note that unlike `makeEndpointURL`, the `ids` parameter is set
whenever a user is present, with no non-empty check on the buyer UID. -/
def adSourceValsBase (a : Adapter) (r : BidRequest) (ext : ExtImpYieldlab)
    (res : bidResponse) : SMap :=
  let val : SMap := []
  let val := mapSet val "ts" a.cb
  let val := mapSet val "id" ext.ExtId
  let val := mapSet val "pvid" res.Pvid
  match r.User with
  | some u => mapSet val "ids" ("ylid:" ++ u.BuyerUID)
  | none => val

/-- The `url.Values` of `makeAdSourceURL` including the GDPR step: the
regulatory signal is added only when extraction succeeded and both parts are
non-empty; an extraction error is swallowed. -/
def makeAdSourceVals (a : Adapter) (r : BidRequest) (ext : ExtImpYieldlab)
    (res : bidResponse) : SMap :=
  let val := adSourceValsBase a r ext res
  match getGDPR r with
  | .ok (gdpr, consent) =>
    if gdpr ≠ "" ∧ consent ≠ "" then mapSet (mapSet val "gdpr" gdpr) "consent" consent else val
  | .error _ => val

/-- Modelled from the spec: the `adSourceURL` format constant is declared
outside the provided source files; per the spec the ad-source URL embeds the
slot ID, the supply ID, the ad size, and the encoded query values. The fixed
host prefix is not modelled. -/
def adSourceFormat (slotID supplyID adsize q : String) : String :=
  slotID ++ "/" ++ supplyID ++ "/" ++ adsize ++ "?" ++ q

/-- Embedding of `makeAdSourceURL`. Total: it always returns a string. -/
def makeAdSourceURL (a : Adapter) (r : BidRequest) (ext : ExtImpYieldlab)
    (res : bidResponse) : String :=
  adSourceFormat ext.AdslotID ext.SupplyID res.Adsize
    (encodeQuery (makeAdSourceVals a r ext res))

/-- Modelled from the spec: the `adSourceBanner` markup template constant is
declared outside the provided source files; per the spec the banner markup is
a fixed HTML template wrapping the ad-source URL. -/
def adSourceBannerWrap (u : String) : String :=
  "<script src=\"" ++ u ++ "\"></script>"

/-- Embedding of `makeBannerAdSource`. -/
def makeBannerAdSource (a : Adapter) (r : BidRequest) (ext : ExtImpYieldlab)
    (res : bidResponse) : String :=
  adSourceBannerWrap (makeAdSourceURL a r ext res)

/-- Value of `currency.EUR.String()` from `golang.org/x/text/currency`. -/
def eur : String := "EUR"

/-- Embedding of the `openrtb.Bid` fields `MakeBids` fills in. The price,
`float64(bid.Price) / 100` in Go, is modelled as an exact rational: IEEE-754
division rounds its exact result, so the two agree exactly on every quotient
that is representable as a binary64 value (see `repFloat64`). -/
structure BidModel where
  ID : String
  Price : ℚ
  ImpID : String
  CrID : String
  DealID : String
  W : Nat
  H : Nat
  NURL : String
  AdM : String
deriving DecidableEq

/-- Embedding of `adapters.TypedBid`. -/
structure TypedBid where
  BidType : String
  Bid : BidModel
deriving DecidableEq

/-- A rational is exactly representable as an IEEE-754 binary64 value:
`m * 2 ^ e` with `|m| < 2 ^ 53` and `e` in the binary64 exponent range. -/
def repFloat64 (q : ℚ) : Prop :=
  ∃ m e : ℤ, q = (m : ℚ) * (2 : ℚ) ^ e ∧ m.natAbs < 2 ^ 53 ∧ -1074 ≤ e ∧ e ≤ 971

/-- The `responseBid` literal built in the `MakeBids` loop (before the
media-type branch fills `NURL` or `AdM`). -/
def mkResponseBid (a : Adapter) (impID : String) (req : ExtImpYieldlab)
    (bid : bidResponse) (width height : Nat) : BidModel :=
  { ID := toString bid.ID
    Price := (bid.Price : ℚ) / 100
    ImpID := impID
    CrID := makeCreativeID a req bid
    DealID := toString bid.Pid
    W := width
    H := height
    NURL := ""
    AdM := "" }

/-- Result of one `MakeBids` call: a Go runtime panic (the out-of-range
`internalRequest.Imp[i]` index), an error return (`nil` response plus a
one-element error slice), or a successful response carrying the bid list and
the response currency. -/
inductive Outcome
  | panic
  | failure (e : YErr)
  | success (bids : List TypedBid) (currency : String)
deriving DecidableEq

/-- The `for i, bid := range bids` loop of `MakeBids`: per entry, parse the ad
size (an error is fatal), correlate the entry by slot ID (no match is fatal),
then read the impression at the same array index — without a bounds check, so
an index at or past the impression count panics — and classify the media
type, skipping entries whose impression is neither video nor banner. -/
def processBids (a : Adapter) (r : BidRequest) (requests : List ExtImpYieldlab) :
    Nat → List bidResponse → List TypedBid → Outcome
  | _, [], acc => .success acc eur
  | i, bid :: rest, acc =>
    match splitSize bid.Adsize with
    | (_, _, some msg) => .failure (.sizeErr msg)
    | (width, height, none) =>
      match findBidReq bid.ID requests with
      | none => .failure (.noBidReq bid.ID)
      | some req =>
        if h : i < r.Imp.length then
          let imp := r.Imp[i]
          let rb := mkResponseBid a imp.ID req bid width height
          if imp.Video then
            processBids a r requests (i + 1) rest
              (acc ++ [{ BidType := "video", Bid := { rb with NURL := makeAdSourceURL a r req bid } }])
          else if imp.Banner then
            processBids a r requests (i + 1) rest
              (acc ++ [{ BidType := "banner", Bid := { rb with AdM := makeBannerAdSource a r req bid } }])
          else
            processBids a r requests (i + 1) rest acc
        else .panic

/-- Embedding of `MakeBids`: reject a non-200 status, reject a body that does
not decode, re-extract the request parameters, then run the response loop. -/
def MakeBids (a : Adapter) (r : BidRequest) (resp : ResponseData) : Outcome :=
  if resp.StatusCode ≠ 200 then .failure (.statusErr resp.StatusCode)
  else
    match resp.Body with
    | .malformed => .failure .bodyParse
    | .parsed bids =>
      match parseRequest r with
      | .error e => .failure e
      | .ok requests => processBids a r requests 0 bids []

/-- The bid list an `Outcome` returns to the caller (`nil` on error, nothing
at all on panic). -/
def bidsOf : Outcome → List TypedBid
  | .success bs _ => bs
  | _ => []

/-- The error list an `Outcome` returns to the caller: every error return in
`MakeBids` is a one-element slice. -/
def errsOf : Outcome → List YErr
  | .failure e => [e]
  | _ => []

end Yieldlab

namespace PrebidCache

/-- One element of the `"responses"` array in the cache service's reply:
either it has a string `"uuid"` field, or it is malformed (the `uuid` is
missing or not a JSON string). -/
inductive RespElem
  | stringUuid (s : String)
  | malformed
deriving DecidableEq

/-- The decoded shape of the cache service's response body as the `gjson`
queries in `PutJson` see it. -/
inductive CacheBody
  | invalidJSON
  | noResponsesArray
  | responsesArray (elems : List RespElem)
deriving DecidableEq

/-- Result of the HTTP POST to the cache service. -/
inductive CacheHTTP
  | networkError
  | response (status : Nat) (body : CacheBody)
deriving DecidableEq

/-- One input value: `json.Marshal` of a `json.RawMessage` fails when the raw
bytes are not valid JSON, which makes `encodeValues` fail. -/
inductive JsonVal
  | valid
  | invalid
deriving DecidableEq

/-- Result of one `PutJson` call: a runtime panic (out-of-range slice write)
or the returned string slice. -/
inductive PutOutcome
  | panic
  | result (uuids : List String)
deriving DecidableEq

/-- A write `l[i] = s` on a Go slice: `none` models the index-out-of-range
panic. -/
def writeAt (l : List String) (i : Nat) (s : String) : Option (List String) :=
  if i < l.length then some (l.set i s) else none

/-- The `responses.ForEach` loop of `PutJson`: a malformed element is skipped
(after logging) but still advances `currentIndex`; an element with a string
uuid is written at `currentIndex`, panicking when the index is out of range. -/
def runResponses : List RespElem → List String → Nat → PutOutcome
  | [], uuids, _ => .result uuids
  | .malformed :: rest, uuids, idx => runResponses rest uuids (idx + 1)
  | .stringUuid s :: rest, uuids, idx =>
    match writeAt uuids idx s with
    | none => .panic
    | some u => runResponses rest u (idx + 1)

/-- Embedding of `clientImpl.PutJson`: every failure before the decode loop
(encoding, request creation, transport, non-200 status, invalid JSON, missing
`responses` array) returns the all-empty slice after logging; the decode loop
then fills in the uuids positionally. -/
def PutJson (values : List JsonVal) (http : CacheHTTP) : PutOutcome :=
  if values.length < 1 then .result []
  else
    let uuidsToReturn := List.replicate values.length ""
    if values.any (fun v => v == .invalid) then .result uuidsToReturn
    else
      match http with
      | .networkError => .result uuidsToReturn
      | .response status body =>
        if status ≠ 200 then .result uuidsToReturn
        else
          match body with
          | .invalidJSON => .result uuidsToReturn
          | .noResponsesArray => .result uuidsToReturn
          | .responsesArray elems => runResponses elems uuidsToReturn 0

end PrebidCache

namespace Yieldlab

/-- A concrete adapter configuration used in concrete instantiations. -/
def a0 : Adapter :=
  { endpointValid := true, endpointPath := "https://ad.yieldlab.net", cb := "1000", week := "7" }

/-- Concrete vendor parameters for slot `"1"`. -/
def p1 : ExtImpYieldlab :=
  { AdslotID := "1", SupplyID := "2", ExtId := "ex", Targeting := [("key", "value")] }

/-- A concrete banner impression carrying `p1`. -/
def imp1 : Imp := { ID := "imp-1", Ext := .parsed p1, Banner := true, Video := false }

/-- A concrete request with a single banner impression and no contexts. -/
def r1 : BidRequest := { Imp := [imp1], Regs := none, User := none, Device := none, App := none }

/-- A concrete response entry matching slot `"1"`. -/
def b1 : bidResponse :=
  { ID := 1, Price := 150, Advertiser := "ad", Adsize := "300x250", Pid := 7, Did := 8, Pvid := "pv" }

/-- A concrete response entry matching no requested slot. -/
def b99 : bidResponse := { b1 with ID := 99 }

/-- A concrete request carrying both a GDPR flag of 1 and a consent string. -/
def rBoth : BidRequest :=
  { r1 with
    Regs := some { ext := .parsed (some 1) }
    User := some { BuyerUID := "", ext := some (.parsed "abc") } }

/-- The URL `makeEndpointURL` builds for `rBoth` (total projection of the
`Except`). -/
def uBoth : URLModel :=
  match makeEndpointURL a0 rBoth p1 with
  | .ok u => u
  | .error _ => { path := "", query := [] }

/-- A concrete request whose GDPR flag value 5 is outside `{0, 1}`. -/
def rFlag5 : BidRequest := { r1 with Regs := some { ext := .parsed (some 5) } }

/-- The same request with the flag absent. -/
def rFlagAbsent : BidRequest := { r1 with Regs := some { ext := .parsed none } }

/-- A concrete request whose regs extension payload does not unmarshal. -/
def rRegsBad : BidRequest := { r1 with Regs := some { ext := .unparseable } }

/-- Concrete parameters for slot `"123"` with two targeting keys. -/
def pA : ExtImpYieldlab :=
  { AdslotID := "123", SupplyID := "", ExtId := "", Targeting := [("k", "v1"), ("a", "x")] }

/-- Concrete parameters for slot `"456"` overriding the key `"k"`. -/
def pB : ExtImpYieldlab :=
  { AdslotID := "456", SupplyID := "", ExtId := "", Targeting := [("k", "v2")] }

end Yieldlab

theorem find?_filter_ne (m : SMap) (k k' : String) (h : k' ≠ k) :
    (m.filter (fun kv => kv.1 != k)).find? (fun kv => kv.1 == k') =
      m.find? (fun kv => kv.1 == k') := by
  induction m with
  | nil => rfl
  | cons a t ih =>
    by_cases hak : a.1 = k
    · have hkk' : (k == k') = false := beq_eq_false_iff_ne.mpr fun hc => h hc.symm
      simp [List.filter_cons, List.find?_cons, hak, hkk', ih]
    · by_cases hk' : a.1 = k'
      · simp [List.filter_cons, List.find?_cons, hak, hk', h]
      · simp [List.filter_cons, List.find?_cons, hak, hk', h, ih]

theorem mapGet_mapSet (m : SMap) (k v k' : String) :
    mapGet (mapSet m k v) k' = if k' = k then some v else mapGet m k' := by
  by_cases h : k' = k
  · simp [mapGet, mapSet, List.find?_cons, h]
  · have hne : (k == k') = false := by
      simp
      exact fun hc => h hc.symm
    simp [mapGet, mapSet, List.find?_cons, hne, h, find?_filter_ne m k k' h]

theorem mapGet_mapSet_self (m : SMap) (k v : String) :
    mapGet (mapSet m k v) k = some v := by
  simp [mapGet_mapSet]

theorem mapGet_mapSet_ne (m : SMap) (k v k' : String) (h : k' ≠ k) :
    mapGet (mapSet m k v) k' = mapGet m k' := by
  simp [mapGet_mapSet, h]

namespace Yieldlab

theorem processBids_unmatched_fails (a : Adapter) (r : BidRequest)
    (requests : List ExtImpYieldlab) :
    ∀ (body : List bidResponse) (i : Nat) (acc : List TypedBid),
      i + body.length ≤ r.Imp.length →
      (∃ b ∈ body, findBidReq b.ID requests = none) →
      ∃ e, processBids a r requests i body acc = .failure e := by
  intro body
  induction body with
  | nil => intro i acc _ hex; simp at hex
  | cons bid rest ih =>
    intro i acc hlen hex
    rcases hsp : splitSize bid.Adsize with ⟨w, ht, err⟩
    cases err with
    | some msg => exact ⟨.sizeErr msg, by simp [processBids, hsp]⟩
    | none =>
      cases hf : findBidReq bid.ID requests with
      | none => exact ⟨.noBidReq bid.ID, by simp [processBids, hsp, hf]⟩
      | some req =>
        have hi : i < r.Imp.length := by simp at hlen; omega
        have hex' : ∃ b ∈ rest, findBidReq b.ID requests = none := by
          rcases hex with ⟨b, hb, hbn⟩
          rcases List.mem_cons.mp hb with hb1 | hb2
          · subst hb1; rw [hf] at hbn; exact absurd hbn (by simp)
          · exact ⟨b, hb2, hbn⟩
        have hlen' : (i + 1) + rest.length ≤ r.Imp.length := by
          simp at hlen; omega
        simp only [processBids, hsp, hf, hi, dite_true, reduceDIte]
        split
        · exact ih (i + 1) _ hlen' hex'
        · split
          · exact ih (i + 1) _ hlen' hex'
          · exact ih (i + 1) _ hlen' hex'

/-- C1 counterexample: the response array `[b1, b1, b99]` contains the entry
`b99` whose id `99` matches no requested slot ID, yet `MakeBids` does not
return one error and zero bids — it panics first, because the second matched
entry reads `Imp[1]` of a one-impression request. -/
theorem MakeBids_unmatched_entry_panics :
    parseRequest r1 = .ok [p1]
    ∧ findBidReq b99.ID [p1] = none
    ∧ b99 ∈ [b1, b1, b99]
    ∧ MakeBids a0 r1 ⟨200, .parsed [b1, b1, b99]⟩ = .panic
    ∧ (errsOf (MakeBids a0 r1 ⟨200, .parsed [b1, b1, b99]⟩)).length ≠ 1 :=
  ⟨rfl, rfl, by simp, rfl, by decide⟩

/-- C1 (amended): whenever the decoded response array is no longer than the
request's impression list, an entry whose id matches no line-item slot ID
makes `MakeBids` return zero bids and exactly one error, regardless of how
many other entries would have matched. -/
theorem MakeBids_unmatched_entry_fails (a : Adapter) (r : BidRequest)
    (body : List bidResponse) (requests : List ExtImpYieldlab)
    (hreq : parseRequest r = .ok requests)
    (hlen : body.length ≤ r.Imp.length)
    (hex : ∃ b ∈ body, findBidReq b.ID requests = none) :
    bidsOf (MakeBids a r ⟨200, .parsed body⟩) = []
    ∧ (errsOf (MakeBids a r ⟨200, .parsed body⟩)).length = 1 := by
  obtain ⟨e, he⟩ := processBids_unmatched_fails a r requests body 0 []
    (by simpa using hlen) hex
  have hmb : MakeBids a r ⟨200, .parsed body⟩ = .failure e := by
    simp [MakeBids, hreq, he]
  rw [hmb]
  exact ⟨rfl, rfl⟩

/-- Witness for C1 (amended) at a concrete request with one impression and a
one-entry response whose id matches nothing. -/
theorem MakeBids_unmatched_entry_fails_witness :
    bidsOf (MakeBids a0 r1 ⟨200, .parsed [b99]⟩) = []
    ∧ (errsOf (MakeBids a0 r1 ⟨200, .parsed [b99]⟩)).length = 1 :=
  MakeBids_unmatched_entry_fails a0 r1 [b99] [p1] rfl (by decide) ⟨b99, by simp, rfl⟩

/-- C2 counterexample: `"ax2"` does not match the `<width>x<height>` shape,
yet `splitSize` returns an error rather than `(0, 0)` with no error, and that
error is fatal for the whole response in `MakeBids`. -/
theorem splitSize_malformed_two_part_errors :
    isWidthXHeight "ax2" = false
    ∧ splitSize "ax2" = (0, 0, some "failed to parse yieldlab adsize")
    ∧ MakeBids a0 r1 ⟨200, .parsed [{ b1 with Adsize := "ax2" }]⟩
        = .failure (.sizeErr "failed to parse yieldlab adsize") :=
  ⟨by decide, by decide, rfl⟩

/-- C2 (amended): an ad-size string that does not split into exactly two
parts on the separator yields `(0, 0)` with no error; a string that splits
into exactly two parts of which some part is not a valid decimal uint64
yields an error; `"300x250"` parses to `(300, 250)` and `"300"` to `(0, 0)`,
both without error. -/
theorem splitSize_amended_spec :
    (∀ s, (splitChar adsizeSeparator s).length ≠ 2 → splitSize s = (0, 0, none))
    ∧ (∀ s ws hs, splitChar adsizeSeparator s = [ws, hs] →
        parseUint64 ws = none ∨ parseUint64 hs = none →
        splitSize s = (0, 0, some "failed to parse yieldlab adsize"))
    ∧ splitSize "300x250" = (300, 250, none)
    ∧ splitSize "300" = (0, 0, none) := by
  refine ⟨?_, ?_, by decide, by decide⟩
  · intro s hlen
    simp only [splitSize]
    split
    · next ws hs heq => rw [heq] at hlen; simp at hlen
    · rfl
  · intro s ws hs heq hpu
    simp only [splitSize, heq]
    rcases hpu with hw | hh
    · simp [hw]
    · cases hpw : parseUint64 ws <;> simp [hpw, hh]

/-- Witness for C2 (amended): a three-part size and a two-part size with an
empty height part. -/
theorem splitSize_amended_spec_witness :
    splitSize "1x2x3" = (0, 0, none)
    ∧ splitSize "300x" = (0, 0, some "failed to parse yieldlab adsize") :=
  ⟨splitSize_amended_spec.1 "1x2x3" (by decide),
   splitSize_amended_spec.2.1 "300x" "300" "" (by decide) (Or.inr (by decide))⟩

/-- C6: a non-200 transport status makes `MakeBids` return zero bids and
exactly one error carrying the status code, and a 200 response whose body
does not decode as a JSON array of vendor entries is likewise fatal for the
whole response. -/
theorem MakeBids_upstream_failures (a : Adapter) (r : BidRequest) (resp : ResponseData) :
    (resp.StatusCode ≠ 200 →
      MakeBids a r resp = .failure (.statusErr resp.StatusCode)
      ∧ bidsOf (MakeBids a r resp) = []
      ∧ errsOf (MakeBids a r resp) = [.statusErr resp.StatusCode])
    ∧ (resp.StatusCode = 200 → resp.Body = .malformed →
      MakeBids a r resp = .failure .bodyParse
      ∧ bidsOf (MakeBids a r resp) = []
      ∧ errsOf (MakeBids a r resp) = [.bodyParse]) := by
  constructor
  · intro hst
    simp [MakeBids, hst, bidsOf, errsOf]
  · intro hst hb
    simp [MakeBids, hst, hb, bidsOf, errsOf]

/-- Witness for C6 at status 500 and at a malformed 200 body. -/
theorem MakeBids_upstream_failures_witness :
    MakeBids a0 r1 ⟨500, .malformed⟩ = .failure (.statusErr 500)
    ∧ MakeBids a0 r1 ⟨200, .malformed⟩ = .failure .bodyParse :=
  ⟨((MakeBids_upstream_failures a0 r1 ⟨500, .malformed⟩).1 (by decide)).1,
   ((MakeBids_upstream_failures a0 r1 ⟨200, .malformed⟩).2 rfl rfl).1⟩

/-- C10: once the `MakeBids` loop reaches a response entry at an index at or
past the impression count, with a well-formed size and an id matching some
requested slot, the positional `Imp[i]` lookup goes out of bounds (a panic)
instead of returning an error. -/
theorem processBids_out_of_bounds_panic (a : Adapter) (r : BidRequest)
    (requests : List ExtImpYieldlab) (i : Nat) (bid : bidResponse)
    (rest : List bidResponse) (acc : List TypedBid) (w ht : Nat)
    (hi : r.Imp.length ≤ i)
    (hsize : splitSize bid.Adsize = (w, ht, none))
    (hmatch : (findBidReq bid.ID requests).isSome = true) :
    processBids a r requests i (bid :: rest) acc = .panic := by
  obtain ⟨req, hreq⟩ := Option.isSome_iff_exists.mp hmatch
  have hni : ¬ i < r.Imp.length := by omega
  simp [processBids, hsize, hreq, hni]

/-- Witness for C10: a two-entry matched response against a one-impression
request panics at the second entry. -/
theorem processBids_out_of_bounds_panic_witness :
    processBids a0 r1 [p1] 1 [b1] [] = .panic :=
  processBids_out_of_bounds_panic a0 r1 [p1] 1 b1 [] [] 300 250
    (by decide) (by decide) (by decide)

theorem setEndpointUserParams_other (r : BidRequest) (q : SMap) (k : String)
    (hk : k ≠ "ids") :
    mapGet (setEndpointUserParams r q) k = mapGet q k := by
  unfold setEndpointUserParams
  cases r.User with
  | none => rfl
  | some u => by_cases hu : u.BuyerUID = "" <;> simp [hu, mapGet_mapSet, hk]

theorem setEndpointDeviceParams_other (r : BidRequest) (q : SMap) (k : String)
    (h1 : k ≠ "yl_rtb_ifa") (h2 : k ≠ "yl_rtb_devicetype")
    (h3 : k ≠ "yl_rtb_connectiontype") (h4 : k ≠ "lat") (h5 : k ≠ "lon") :
    mapGet (setEndpointDeviceParams r q) k = mapGet q k := by
  unfold setEndpointDeviceParams
  cases r.Device with
  | none => rfl
  | some d =>
    obtain ⟨ifa, dt, ct, geo⟩ := d
    cases ct <;> cases geo <;> simp [mapGet_mapSet, h1, h2, h3, h4, h5]

theorem setEndpointAppParams_other (r : BidRequest) (q : SMap) (k : String)
    (h1 : k ≠ "pubappname") (h2 : k ≠ "pubbundlename") :
    mapGet (setEndpointAppParams r q) k = mapGet q k := by
  unfold setEndpointAppParams
  cases r.App with
  | none => rfl
  | some app => simp [mapGet_mapSet, h1, h2]

theorem baseEndpointQuery_no_reg (a : Adapter) (r : BidRequest) (p : ExtImpYieldlab) :
    mapGet (baseEndpointQuery a r p) "gdpr" = none
    ∧ mapGet (baseEndpointQuery a r p) "consent" = none := by
  constructor
  · simp only [baseEndpointQuery]
    rw [setEndpointAppParams_other _ _ _ (by decide) (by decide),
      setEndpointDeviceParams_other _ _ _ (by decide) (by decide) (by decide) (by decide) (by decide),
      setEndpointUserParams_other _ _ _ (by decide)]
    rfl
  · simp only [baseEndpointQuery]
    rw [setEndpointAppParams_other _ _ _ (by decide) (by decide),
      setEndpointDeviceParams_other _ _ _ (by decide) (by decide) (by decide) (by decide) (by decide),
      setEndpointUserParams_other _ _ _ (by decide)]
    rfl

/-- C4: the outbound endpoint URL carries the `gdpr` and `consent` query
parameters exactly when both the extracted flag and the extracted consent
string are non-empty; when either is empty, neither parameter is emitted. -/
theorem makeEndpointURL_gdpr_both_or_nothing (a : Adapter) (r : BidRequest)
    (p : ExtImpYieldlab) (u : URLModel) (g c : String)
    (hg : getGDPR r = .ok (g, c)) (hu : makeEndpointURL a r p = .ok u) :
    (((mapGet u.query "gdpr").isSome ∧ (mapGet u.query "consent").isSome)
      ↔ (g ≠ "" ∧ c ≠ ""))
    ∧ ((g = "" ∨ c = "") →
        mapGet u.query "gdpr" = none ∧ mapGet u.query "consent" = none) := by
  unfold makeEndpointURL at hu
  by_cases hv : a.endpointValid
  · rw [if_pos hv, hg] at hu
    dsimp only at hu
    by_cases hgc : g ≠ "" ∧ c ≠ ""
    · rw [if_pos hgc] at hu
      rw [Except.ok.injEq] at hu
      subst hu
      constructor
      · simp [mapGet_mapSet_self,
          mapGet_mapSet_ne _ "consent" _ "gdpr" (by decide), hgc.1, hgc.2]
      · intro hor
        rcases hgc with ⟨hg1, hc1⟩
        rcases hor with hor | hor
        · exact absurd hor hg1
        · exact absurd hor hc1
    · rw [if_neg hgc] at hu
      rw [Except.ok.injEq] at hu
      subst hu
      have hbase := baseEndpointQuery_no_reg a r p
      constructor
      · simp only [hbase.1, hbase.2]
        simp [hgc]
      · intro _
        exact ⟨hbase.1, hbase.2⟩
  · rw [if_neg hv] at hu
    exact absurd hu (by simp)

/-- Witness for C4: with flag `"1"` and consent `"abc"` both parameters are
present in the built URL. -/
theorem makeEndpointURL_gdpr_both_or_nothing_witness :
    (mapGet uBoth.query "gdpr").isSome ∧ (mapGet uBoth.query "consent").isSome :=
  (makeEndpointURL_gdpr_both_or_nothing a0 rBoth p1 uBoth "1" "abc" rfl rfl).1.mpr
    (by decide)

theorem adSourceValsBase_no_reg (a : Adapter) (r : BidRequest) (ext : ExtImpYieldlab)
    (res : bidResponse) :
    mapGet (adSourceValsBase a r ext res) "gdpr" = none
    ∧ mapGet (adSourceValsBase a r ext res) "consent" = none := by
  unfold adSourceValsBase
  cases r.User <;> exact ⟨rfl, rfl⟩

/-- C9: building the ad-source URL never fails (it is a total function); a
regulatory-extraction failure at this call site is swallowed — the `gdpr` and
`consent` values are simply omitted, still under the both-or-nothing policy —
whereas `makeEndpointURL` propagates that same failure. -/
theorem makeAdSourceURL_swallows_reg_error (a : Adapter) (r : BidRequest)
    (ext p : ExtImpYieldlab) (res : bidResponse) (hv : a.endpointValid = true) :
    (((mapGet (makeAdSourceVals a r ext res) "gdpr").isSome
        ∧ (mapGet (makeAdSourceVals a r ext res) "consent").isSome)
      ↔ ∃ g c, getGDPR r = .ok (g, c) ∧ g ≠ "" ∧ c ≠ "")
    ∧ (∀ e, getGDPR r = .error e →
        makeAdSourceVals a r ext res = adSourceValsBase a r ext res
        ∧ mapGet (makeAdSourceVals a r ext res) "gdpr" = none
        ∧ mapGet (makeAdSourceVals a r ext res) "consent" = none
        ∧ makeAdSourceURL a r ext res
            = adSourceFormat ext.AdslotID ext.SupplyID res.Adsize
                (encodeQuery (adSourceValsBase a r ext res))
        ∧ makeEndpointURL a r p = .error e) := by
  have hbase := adSourceValsBase_no_reg a r ext res
  cases hgd : getGDPR r with
  | error e0 =>
    have hvals : makeAdSourceVals a r ext res = adSourceValsBase a r ext res := by
      simp [makeAdSourceVals, hgd]
    constructor
    · rw [hvals]
      simp only [hbase.1, hbase.2]
      simp
    · intro e he
      rw [Except.error.injEq] at he
      subst he
      refine ⟨hvals, by rw [hvals]; exact hbase.1, by rw [hvals]; exact hbase.2, ?_, ?_⟩
      · simp [makeAdSourceURL, hvals]
      · simp [makeEndpointURL, hv, hgd]
  | ok gc =>
    obtain ⟨g0, c0⟩ := gc
    constructor
    · by_cases hgc : g0 ≠ "" ∧ c0 ≠ ""
      · have hvals : makeAdSourceVals a r ext res
            = mapSet (mapSet (adSourceValsBase a r ext res) "gdpr" g0) "consent" c0 := by
          simp [makeAdSourceVals, hgd, hgc]
        rw [hvals]
        simp only [mapGet_mapSet_self,
          mapGet_mapSet_ne _ "consent" _ "gdpr" (by decide), mapGet_mapSet_self]
        simp only [Option.isSome_some, true_and]
        constructor
        · intro _
          exact ⟨g0, c0, rfl, hgc.1, hgc.2⟩
        · intro _
          trivial
      · have hvals : makeAdSourceVals a r ext res = adSourceValsBase a r ext res := by
          simp [makeAdSourceVals, hgd, hgc]
        rw [hvals]
        simp only [hbase.1, hbase.2]
        constructor
        · intro hco
          simp at hco
        · rintro ⟨g, c, hok, hgne, hcne⟩
          rw [Except.ok.injEq, Prod.mk.injEq] at hok
          exact absurd ⟨by rw [hok.1]; exact hgne, by rw [hok.2]; exact hcne⟩ hgc
    · intro e he
      exact absurd he (by simp)

/-- Witness for C9: on a request whose regs payload does not parse, the
ad-source values omit the regulatory parameters while the endpoint builder
fails. -/
theorem makeAdSourceURL_swallows_reg_error_witness :
    mapGet (makeAdSourceVals a0 rRegsBad p1 b1) "gdpr" = none
    ∧ makeEndpointURL a0 rRegsBad p1
        = .error "failed to parse ExtRegs in Yieldlab GDPR check" :=
  ⟨((makeAdSourceURL_swallows_reg_error a0 rRegsBad p1 p1 b1 rfl).2
      "failed to parse ExtRegs in Yieldlab GDPR check" rfl).2.1,
   ((makeAdSourceURL_swallows_reg_error a0 rRegsBad p1 p1 b1 rfl).2
      "failed to parse ExtRegs in Yieldlab GDPR check" rfl).2.2.2.2⟩

/-- C8: `getGDPR` fails exactly when a present regs extension payload does
not unmarshal or a present, non-nil user extension payload does not
unmarshal; a flag value outside `{0, 1}` is silently treated as an absent
flag; and absent regs and user objects yield the empty signal with no
error. -/
theorem getGDPR_error_conditions (r : BidRequest) :
    ((∃ e, getGDPR r = .error e) ↔
      ((∃ regs, r.Regs = some regs ∧ regs.ext = .unparseable)
        ∨ (∃ u, r.User = some u ∧ u.ext = some .malformed)))
    ∧ (∀ regs v, r.Regs = some regs → regs.ext = .parsed (some v) →
        v ≠ 0 → v ≠ 1 →
        getGDPR r = getGDPR { r with Regs := some { ext := .parsed none } })
    ∧ (r.Regs = none → r.User = none → getGDPR r = .ok ("", "")) := by
  obtain ⟨imps, regs, user, dev, app⟩ := r
  refine ⟨?_, ?_, ?_⟩
  · rcases regs with _ | ⟨(_ | (_ | v))⟩ <;>
      rcases user with _ | ⟨uid, _ | (_ | c)⟩ <;>
        simp [getGDPR]
  · intro regs1 v hr hx hv0 hv1
    simp only at hr
    subst hr
    obtain ⟨rext⟩ := regs1
    simp only at hx
    subst hx
    simp [getGDPR, hv0, hv1]
  · intro h1 h2
    simp only at h1 h2
    subst h1
    subst h2
    simp [getGDPR]

/-- Witness for C8: a flag value of 5 is treated as an absent flag, and a
request with no regs and no user yields the empty signal. -/
theorem getGDPR_error_conditions_witness :
    getGDPR rFlag5 = getGDPR { rFlag5 with Regs := some { ext := .parsed none } }
    ∧ getGDPR r1 = .ok ("", "") :=
  ⟨(getGDPR_error_conditions rFlag5).2.1 { ext := .parsed (some 5) } 5 rfl rfl
      (by decide) (by decide),
   (getGDPR_error_conditions r1).2.2 rfl rfl⟩

theorem mapGet_cons (kv : String × String) (t : SMap) (k : String) :
    mapGet (kv :: t) k = if kv.1 = k then some kv.2 else mapGet t k := by
  by_cases h : kv.1 = k <;> simp [mapGet, List.find?_cons, h]

theorem mapGet_eq_none_of_not_mem_keys (l : SMap) (k : String)
    (h : k ∉ l.map Prod.fst) : mapGet l k = none := by
  induction l with
  | nil => rfl
  | cons a t ih =>
    simp only [List.map_cons, List.mem_cons, not_or] at h
    rw [mapGet_cons, if_neg (fun hc => h.1 hc.symm)]
    exact ih h.2

theorem mapGet_foldl_set_nodup (l : SMap) (m : SMap) (k : String)
    (hnd : (l.map Prod.fst).Nodup) :
    mapGet (l.foldl (fun t kv => mapSet t kv.1 kv.2) m) k =
      match mapGet l k with
      | some v => some v
      | none => mapGet m k := by
  induction l generalizing m with
  | nil => simp [mapGet]
  | cons kv t ih =>
    rw [List.map_cons] at hnd
    have hnd' : (t.map Prod.fst).Nodup := (List.nodup_cons.mp hnd).2
    have hknot : kv.1 ∉ t.map Prod.fst := (List.nodup_cons.mp hnd).1
    rw [List.foldl_cons, ih (mapSet m kv.1 kv.2) hnd']
    by_cases hk : k = kv.1
    · subst hk
      rw [mapGet_eq_none_of_not_mem_keys t kv.1 hknot, mapGet_cons]
      simp [mapGet_mapSet]
    · rw [mapGet_cons, if_neg (fun hc => hk hc.symm)]
      cases hmt : mapGet t k with
      | some v => rfl
      | none => simp [mapGet_mapSet, hk]

theorem find?_append_or {α : Type} (l₁ l₂ : List α) (p : α → Bool) :
    (l₁ ++ l₂).find? p =
      match l₁.find? p with
      | some x => some x
      | none => l₂.find? p := by
  induction l₁ with
  | nil => simp
  | cons a t ih => by_cases h : p a <;> simp [List.find?_cons, h, ih]

theorem mapGet_mergeTargeting (ps : List ExtImpYieldlab) (m : SMap) (k : String)
    (hnd : ∀ p ∈ ps, (p.Targeting.map Prod.fst).Nodup) :
    mapGet (ps.foldl (fun t p => p.Targeting.foldl (fun t kv => mapSet t kv.1 kv.2) t) m) k =
      match ps.reverse.find? (fun p => (mapGet p.Targeting k).isSome) with
      | some p => mapGet p.Targeting k
      | none => mapGet m k := by
  induction ps generalizing m with
  | nil => simp
  | cons p t ih =>
    have hndp : (p.Targeting.map Prod.fst).Nodup := hnd p (by simp)
    have hndt : ∀ q ∈ t, (q.Targeting.map Prod.fst).Nodup := fun q hq => hnd q (by simp [hq])
    rw [List.foldl_cons, ih _ hndt, List.reverse_cons, find?_append_or]
    cases hft : t.reverse.find? (fun q => (mapGet q.Targeting k).isSome) with
    | some q => rfl
    | none =>
      rw [mapGet_foldl_set_nodup _ _ _ hndp]
      cases hpk : mapGet p.Targeting k with
      | some v => simp [List.find?_cons, hpk]
      | none => simp [List.find?_cons, hpk]

/-- C5: the merged slot-ID string is the input-order join with the fixed
separator, and the merged targeting map carries exactly the union of the
contributing keys, a colliding key taking the value of the last
(highest-index) line-item containing it. -/
theorem mergeParams_spec (ps : List ExtImpYieldlab) (_hps : ps ≠ [])
    (hnd : ∀ p ∈ ps, (p.Targeting.map Prod.fst).Nodup) :
    (mergeParams ps).AdslotID
      = String.intercalate adSlotIdSeparator (ps.map (fun p => p.AdslotID))
    ∧ (∀ k, mapGet (mergeParams ps).Targeting k =
        match ps.reverse.find? (fun p => (mapGet p.Targeting k).isSome) with
        | some p => mapGet p.Targeting k
        | none => none)
    ∧ (∀ k, (mapGet (mergeParams ps).Targeting k).isSome
        ↔ ∃ p ∈ ps, (mapGet p.Targeting k).isSome) := by
  refine ⟨rfl, ?_, ?_⟩
  · intro k
    exact mapGet_mergeTargeting ps [] k hnd
  · intro k
    have h2 := mapGet_mergeTargeting ps [] k hnd
    have hT : (mergeParams ps).Targeting
        = ps.foldl (fun t p => p.Targeting.foldl (fun t kv => mapSet t kv.1 kv.2) t) [] := rfl
    rw [hT, h2]
    cases hft : ps.reverse.find? (fun p => (mapGet p.Targeting k).isSome) with
    | some p =>
      have hmem : p ∈ ps := List.mem_reverse.mp (List.mem_of_find?_eq_some hft)
      have hpred := List.find?_some hft
      constructor
      · intro _
        exact ⟨p, hmem, hpred⟩
      · intro _
        exact hpred
    | none =>
      constructor
      · intro hs
        simp [mapGet] at hs
      · rintro ⟨p, hp, hps'⟩
        have := List.find?_eq_none.mp hft p (List.mem_reverse.mpr hp)
        exact absurd hps' (by simpa using this)

/-- Witness for C5: two concrete line-items; the slot join is `"123,456"`,
the colliding key `"k"` takes the later value, and the key `"a"` from the
first line-item is not lost. -/
theorem mergeParams_spec_witness :
    (mergeParams [pA, pB]).AdslotID = "123,456"
    ∧ mapGet (mergeParams [pA, pB]).Targeting "k" = some "v2"
    ∧ mapGet (mergeParams [pA, pB]).Targeting "a" = some "x" := by
  have h := mergeParams_spec [pA, pB] (by decide) (by decide)
  exact ⟨h.1.trans rfl, (h.2.1 "k").trans rfl, (h.2.1 "a").trans rfl⟩

theorem processBids_success_currency (a : Adapter) (r : BidRequest)
    (requests : List ExtImpYieldlab) :
    ∀ (body : List bidResponse) (i : Nat) (acc bs : List TypedBid) (cur : String),
      processBids a r requests i body acc = .success bs cur → cur = eur := by
  intro body
  induction body with
  | nil =>
    intro i acc bs cur h
    simp [processBids] at h
    exact h.2.symm
  | cons bid rest ih =>
    intro i acc bs cur h
    rcases hsp : splitSize bid.Adsize with ⟨w, ht, err⟩
    cases err with
    | some msg => simp [processBids, hsp] at h
    | none =>
      cases hf : findBidReq bid.ID requests with
      | none => simp [processBids, hsp, hf] at h
      | some req =>
        by_cases hib : i < r.Imp.length
        · simp only [processBids, hsp, hf, hib, dite_true, reduceDIte] at h
          split at h
          · exact ih _ _ _ _ h
          · split at h
            · exact ih _ _ _ _ h
            · exact ih _ _ _ _ h
        · simp [processBids, hsp, hf, hib] at h

theorem MakeBids_success_currency (a : Adapter) (r : BidRequest) (resp : ResponseData)
    (bs : List TypedBid) (cur : String) (h : MakeBids a r resp = .success bs cur) :
    cur = eur := by
  unfold MakeBids at h
  by_cases hst : resp.StatusCode ≠ 200
  · rw [if_pos hst] at h
    exact absurd h (by simp)
  · rw [if_neg hst] at h
    cases hb : resp.Body with
    | malformed => rw [hb] at h; exact absurd h (by simp)
    | parsed bids =>
      rw [hb] at h
      cases hpr : parseRequest r with
      | error e => rw [hpr] at h; exact absurd h (by simp)
      | ok requests =>
        rw [hpr] at h
        exact processBids_success_currency a r requests bids 0 [] bs cur h

/-- C7: the produced bid's price is exactly `priceMinorUnits / 100` — the
model's rational division coincides with the Go `float64` division on every
quotient that is exactly representable in binary64, which includes the
spec's examples `150 ↦ 1.50` and `0 ↦ 0.0` — and the currency of every
successful response is the fixed `"EUR"`, independent of the request. -/
theorem bid_price_conversion (a : Adapter) (impID : String) (req : ExtImpYieldlab)
    (b : bidResponse) (w ht : Nat) (r : BidRequest) (resp : ResponseData) (cur : String)
    (hs : ∃ bs, MakeBids a r resp = .success bs cur) :
    (mkResponseBid a impID req b w ht).Price = (b.Price : ℚ) / 100
    ∧ (mkResponseBid a impID req { b with Price := 150 } w ht).Price = 3 / 2
    ∧ (mkResponseBid a impID req { b with Price := 0 } w ht).Price = 0
    ∧ repFloat64 ((150 : ℚ) / 100)
    ∧ repFloat64 ((0 : ℚ) / 100)
    ∧ cur = eur := by
  obtain ⟨bs, hbs⟩ := hs
  refine ⟨rfl, by norm_num [mkResponseBid], by norm_num [mkResponseBid], ?_, ?_,
    MakeBids_success_currency a r resp bs cur hbs⟩
  · exact ⟨3, -1, by norm_num [zpow_neg], by norm_num, by norm_num, by norm_num⟩
  · exact ⟨0, 0, by norm_num, by norm_num, by norm_num, by norm_num⟩

/-- Witness for C7 on a concrete successful response. -/
theorem bid_price_conversion_witness :
    (mkResponseBid a0 "imp-1" p1 b1 300 250).Price = (b1.Price : ℚ) / 100
    ∧ (mkResponseBid a0 "imp-1" p1 { b1 with Price := 150 } 300 250).Price = 3 / 2
    ∧ (mkResponseBid a0 "imp-1" p1 { b1 with Price := 0 } 300 250).Price = 0
    ∧ repFloat64 ((150 : ℚ) / 100)
    ∧ repFloat64 ((0 : ℚ) / 100)
    ∧ "EUR" = eur :=
  bid_price_conversion a0 "imp-1" p1 b1 300 250 r1 ⟨200, .parsed [b1]⟩ "EUR" ⟨_, rfl⟩

end Yieldlab

namespace PrebidCache

/-- C3: the claim that `PutJson` never panics is violated when the cache
service's 200 response contains more `responses` elements than input values:
the positional write goes out of range. With one input value and two uuid
elements the loop panics instead of returning `["a"]`. -/
theorem PutJson_panics_on_extra_responses :
    PutJson [.valid] (.response 200 (.responsesArray [.stringUuid "a", .stringUuid "b"]))
      = .panic :=
  rfl

end PrebidCache
